import Mathlib

/-!
Verification of the CH3SS puzzle-management core: a shallow embedding of the
two `PuzzleManager` implementations (browser and Node variants) and proofs of
the specification's claims about them.

JS numbers are modelled as `ℚ` (all arithmetic the claims touch is exact at
the inputs considered), JS strings as `String`, `Map`/object caches as
insertion-ordered association lists, `Set` as a list of keys, and `null` as
`Option`. Asynchronous calls are modelled as completed events: each fallible
fetch is represented by an `Option Chunk` oracle argument giving the outcome
of that fetch.
-/

/-- Coercion of a nullable JS timestamp used in arithmetic: `null` coerces
to `0` in JS subtraction. -/
def orZero : Option ℚ → ℚ
  | none => 0
  | some t => t

/-- Semantics of JS `Math.round` for the values in range here:
round half toward positive infinity. -/
def jsRound (q : ℚ) : ℤ := ⌊q + 1/2⌋

/-- Semantics of JS array indexing `arr[i]` with a possibly out-of-range or
negative index: `undefined` becomes `none`. -/
def jsIndex (l : List String) (i : ℤ) : Option String :=
  if i < 0 then none else l[i.toNat]?

/-- Auxiliary for `jsSplit`: accumulates the current token (reversed). -/
def jsSplitAux (sep : Char) : List Char → List Char → List (List Char)
  | [], acc => [acc.reverse]
  | c :: rest, acc =>
    if c == sep then acc.reverse :: jsSplitAux sep rest []
    else jsSplitAux sep rest (c :: acc)

/-- Semantics of JS `String.prototype.split` with a single-character
separator: `"".split(" ") = [""]`, and consecutive separators produce empty
tokens. -/
def jsSplit (s : String) (sep : Char) : List String :=
  (jsSplitAux sep s.toList []).map (fun l => ⟨l⟩)

/-- Auxiliary for `strIncludes`: does the second list start with the
first? -/
def charsStartsWith : List Char → List Char → Bool
  | [], _ => true
  | _ :: _, [] => false
  | p :: ps, c :: cs => p == c && charsStartsWith ps cs

/-- Auxiliary for `strIncludes`: does the pattern occur in the list? -/
def charsIncludes (pat : List Char) : List Char → Bool
  | [] => pat.isEmpty
  | c :: rest => charsStartsWith pat (c :: rest) || charsIncludes pat rest

/-- Semantics of JS `String.prototype.includes`. -/
def strIncludes (s pat : String) : Bool := charsIncludes pat.toList s.toList

/-- Record shape of one puzzle as decoded from a chunk file
(`{FEN, Moves, Rating, Themes}`, all strings). -/
structure PuzzleRecord where
  FEN : String
  Moves : String
  Rating : String
  Themes : String
deriving DecidableEq, Repr

/-- Decoded content of one chunk file: a list of puzzle records. -/
abbrev Chunk := List PuzzleRecord

/-- Cache key construction, `` `${mode}-${chunkIndex}` `` in both
implementations. -/
def chunkCacheKey (mode : String) (chunkIndex : ℕ) : String :=
  mode ++ "-" ++ toString chunkIndex

/-- State of the browser manager's chunk machinery: the `loadedChunks` map
(as an insertion-ordered association list, matching JS `Map` iteration
order for keys that are only ever inserted once) and the `prefetchedChunks`
set (as the list of keys in insertion order). -/
structure CacheState where
  loadedChunks : List (String × Chunk)
  prefetchedChunks : List String
deriving DecidableEq, Repr

/-- Lookup in the chunk cache (`loadedChunks.has` / `loadedChunks.get`). -/
def lookupChunk (cache : List (String × Chunk)) (key : String) : Option Chunk :=
  match cache.find? (fun e => e.1 == key) with
  | some e => some e.2
  | none => none

/-- Core of `loadPuzzleChunk` (part_000 lines 97-131) for a given cache key:
on a cache hit return the cached chunk unchanged; on a miss, `fetched` is
the outcome of the fetch+decompress+parse pipeline (`none` models any error
caught by the surrounding try/catch, which makes the function return `null`
without touching the cache). On a successful miss-fill the chunk is
inserted, and if the cache then holds more than 5 entries the first key in
insertion order is deleted. The fire-and-forget `prefetchChunk` of the next
index that the source schedules here is modelled as a separate, later
`CacheEvent`. -/
def loadPuzzleChunkKey (cache : List (String × Chunk)) (key : String)
    (fetched : Option Chunk) : List (String × Chunk) × Option Chunk :=
  match lookupChunk cache key with
  | some puzzles => (cache, some puzzles)
  | none =>
    match fetched with
    | none => (cache, none)
    | some puzzles =>
      let inserted := cache ++ [(key, puzzles)]
      (if 5 < inserted.length then inserted.tail else inserted, some puzzles)

/-- `loadPuzzleChunk(mode, chunkIndex)` of part_000: builds the cache key
from mode and chunk index, then runs the keyed fill path. -/
def loadPuzzleChunk (cache : List (String × Chunk)) (mode : String)
    (chunkIndex : ℕ) (fetched : Option Chunk) :
    List (String × Chunk) × Option Chunk :=
  loadPuzzleChunkKey cache (chunkCacheKey mode chunkIndex) fetched

/-- `prefetchChunk(mode, chunkIndex)` of part_000 lines 84-94, as a
completed call. Returns the new state together with the number of fill
attempts performed (0 or 1). If the key is already in `prefetchedChunks`
the call returns immediately. Otherwise it awaits `loadPuzzleChunk` — which
never throws: every failure inside it is caught and turned into `null` — so
the key is added to `prefetchedChunks` afterwards whether the fill
succeeded (`fetched = some _`) or failed (`fetched = none`); the
`catch` branch of `prefetchChunk` itself is unreachable. -/
def prefetchChunk (st : CacheState) (mode : String) (chunkIndex : ℕ)
    (fetched : Option Chunk) : CacheState × ℕ :=
  let cacheKey := chunkCacheKey mode chunkIndex
  if st.prefetchedChunks.contains cacheKey then (st, 0)
  else
    let filled := loadPuzzleChunkKey st.loadedChunks cacheKey fetched
    (⟨filled.1, st.prefetchedChunks ++ [cacheKey]⟩, 1)

/-- Completed cache operations: a direct `loadPuzzleChunk` call or a
`prefetchChunk` call, each carrying the fetch outcome for a potential
miss. -/
inductive CacheEvent where
  | load (mode : String) (chunkIndex : ℕ) (fetched : Option Chunk)
  | prefetch (mode : String) (chunkIndex : ℕ) (fetched : Option Chunk)

/-- Effect of one completed cache operation on the cache state. -/
def applyCacheEvent (st : CacheState) : CacheEvent → CacheState
  | CacheEvent.load mode chunkIndex fetched =>
    ⟨(loadPuzzleChunk st.loadedChunks mode chunkIndex fetched).1,
      st.prefetchedChunks⟩
  | CacheEvent.prefetch mode chunkIndex fetched =>
    (prefetchChunk st mode chunkIndex fetched).1

/-- Cache state reached from a fresh manager (empty cache, empty prefetch
set) by a sequence of completed cache operations. -/
def runCacheEvents (events : List CacheEvent) : CacheState :=
  events.foldl applyCacheEvent ⟨[], []⟩

/-- State of a `PuzzleManager` instance (part_000 constructor, lines
12-24). Timestamps are `Option ℚ` (`null` initially); `basePoints` is set
to 100 by the constructor and never reassigned. The zstd handle carries no
verifiable state and is omitted. -/
structure PuzzleManager where
  currentPuzzle : Option PuzzleRecord := none
  puzzleMode : String := "tutorial"
  currentStreak : ℕ := 0
  loadedChunks : List (String × Chunk) := []
  currentScore : ℤ := 0
  solveStartTime : Option ℚ := none
  remainingTime : ℚ := 60
  lastUpdateTime : Option ℚ := none
  basePoints : ℚ := 100
  prefetchedChunks : List String := []
deriving DecidableEq, Repr

/-- Manager state right after `new PuzzleManager()`. -/
def initManager : PuzzleManager := {}

/-- `calculatePuzzleScore(timeToSolve)` (part_000 lines 151-155, part_001
lines 85-89, identical): streak multiplier capped at 3, speed bonus capped
below at 1, result rounded. -/
def calculatePuzzleScore (m : PuzzleManager) (timeToSolve : ℚ) : ℤ :=
  let streakMultiplier := min 3 (1 + (m.currentStreak : ℚ) * 0.1)
  let speedBonus := max 1 (2 - timeToSolve / 15)
  jsRound (m.basePoints * streakMultiplier * speedBonus)

/-- Result of `move === solutionMoves[moveIndex]` for a given puzzle: a
missing entry (`undefined`) compares unequal to every string. -/
def moveIsCorrect (puzzle : PuzzleRecord) (move : String) (moveIndex : ℤ) : Bool :=
  match jsIndex (jsSplit puzzle.Moves ' ') moveIndex with
  | some sol => move == sol
  | none => false

/-- Return shapes of `checkMove`: the bare `false` returned when no puzzle
is active, the `{correct, complete:false}` object, and the completion
object. -/
inductive CheckResult where
  | noPuzzle : CheckResult
  | moveResult (correct : Bool) (complete : Bool) : CheckResult
  | completeResult (score : ℤ) (timeToSolve : ℚ) (streakBonus : ℕ)
      (totalScore : ℤ) (remainingTime : ℚ) : CheckResult
deriving DecidableEq, Repr

/-- Truthiness of the `correct` information in a `checkMove` return value
(the bare `false` is falsy; the completion object has `correct: true`). -/
def CheckResult.correct : CheckResult → Bool
  | CheckResult.noPuzzle => false
  | CheckResult.moveResult c _ => c
  | CheckResult.completeResult _ _ _ _ _ => true

/-- The `complete` information in a `checkMove` return value. -/
def CheckResult.complete : CheckResult → Bool
  | CheckResult.noPuzzle => false
  | CheckResult.moveResult _ c => c
  | CheckResult.completeResult _ _ _ _ _ => true

/-- `checkMove(move, moveIndex)` (part_000 lines 197-228, part_001 lines
132-163, identical): `now` is the `Date.now()` reading taken inside the
completion branch. Returns the updated manager together with the returned
value. Score is computed from the pre-increment streak; the returned
`streakBonus` and `totalScore` read the fields after the update, as in the
source. -/
def checkMove (m : PuzzleManager) (move : String) (moveIndex : ℤ) (now : ℚ) :
    PuzzleManager × CheckResult :=
  match m.currentPuzzle with
  | none => (m, CheckResult.noPuzzle)
  | some puzzle =>
    let solutionMoves := jsSplit puzzle.Moves ' '
    let isCorrect := moveIsCorrect puzzle move moveIndex
    if isCorrect = true ∧ moveIndex = (solutionMoves.length : ℤ) - 1 then
      let timeToSolve := (now - orZero m.solveStartTime) / 1000
      let score := calculatePuzzleScore m timeToSolve
      let newScore := m.currentScore + score
      let newStreak := m.currentStreak + 1
      ({ m with currentScore := newScore, currentStreak := newStreak },
        CheckResult.completeResult score timeToSolve newStreak newScore
          m.remainingTime)
    else if isCorrect then (m, CheckResult.moveResult isCorrect false)
    else ({ m with currentStreak := 0 }, CheckResult.moveResult isCorrect false)

/-- `updateGameTimer()` (part_000 lines 142-148): subtracts the elapsed
seconds since the last tick, floors the remaining time at 0, advances the
tick anchor, and returns the new remaining time. A `null` anchor coerces to
0 in the subtraction, as in JS. -/
def updateGameTimer (m : PuzzleManager) (now : ℚ) : PuzzleManager × ℚ :=
  let elapsed := (now - orZero m.lastUpdateTime) / 1000
  let r := max 0 (m.remainingTime - elapsed)
  ({ m with remainingTime := r, lastUpdateTime := some now }, r)

/-- Truthiness of a nullable timestamp (`!this.lastUpdateTime` is true for
`null` and for `0`). -/
def timestampFalsy : Option ℚ → Bool
  | none => true
  | some t => t == 0

/-- `startPuzzleTimer()` (part_000 lines 134-139): records the solve start;
initializes the tick anchor only when it is still falsy. -/
def startPuzzleTimer (m : PuzzleManager) (now : ℚ) : PuzzleManager :=
  if timestampFalsy m.lastUpdateTime then
    { m with solveStartTime := some now, lastUpdateTime := some now }
  else { m with solveStartTime := some now }

/-- `isGameOver()` (part_000 lines 253-255): `remainingTime <= 0`. -/
def isGameOver (m : PuzzleManager) : Bool := decide (m.remainingTime ≤ 0)

/-- `resetGame()` (part_000 lines 267-274, part_001 lines 202-209,
identical): resets score, streak, remaining time, both timer anchors and
the mode — and nothing else. -/
def resetGame (m : PuzzleManager) : PuzzleManager :=
  { m with currentScore := 0, currentStreak := 0, remainingTime := 60,
           lastUpdateTime := none, solveStartTime := none,
           puzzleMode := "tutorial" }

/-- `setPuzzleMode(mode)` (part_000 lines 240-243). -/
def setPuzzleMode (m : PuzzleManager) (mode : String) : PuzzleManager :=
  { m with puzzleMode := mode, currentStreak := 0 }

/-- `getGoalText(puzzle)` (part_000 lines 276-290, part_001 lines 211-225,
identical): side from whether the FEN contains `" w "`; mate themes take
priority; otherwise `themes.find(t => tacticalMotifs.includes(t))` scans
the puzzle's theme list in its own order and keeps the first tag that is a
tactical motif. -/
def getGoalText (puzzle : PuzzleRecord) : String :=
  let side := if strIncludes puzzle.FEN " w " then "White" else "Black"
  let themes := jsSplit puzzle.Themes ' '
  if themes.contains "mateIn1" then side ++ " to move – Mate in 1"
  else if themes.contains "mateIn2" then side ++ " to move – Mate in 2"
  else if themes.contains "mateIn3" then side ++ " to move – Mate in 3"
  else
    let tacticalMotifs := ["fork", "pin", "skewer", "doubleCheck"]
    match themes.find? (fun t => tacticalMotifs.contains t) with
    | some motif => side ++ " to move – Find the " ++ motif
    | none => side ++ " to move – Find the best tactic"

/-- Difficulty progression of part_000's `getNextPuzzle` (lines 158-181):
the pure map from the current streak to the tier and chunk index that will
be fetched. Natural-number division is the `Math.floor` of the source's
nonnegative quotients. -/
def resolveProgression (streak : ℕ) : String × ℕ :=
  if streak < 3 then ("tutorial", 0)
  else if streak < 8 then ("core-loop", (streak - 3) / 2)
  else
    let puzzleNumber := streak - 8
    if puzzleNumber % 5 = 4 then ("spice", puzzleNumber / 10)
    else ("core-loop", puzzleNumber / 5)

/-- Difficulty progression of part_001's `getNextPuzzle` (lines 92-116):
`targetChunkIndex` stays 0 in the `streak < 8` branches (the core-loop
branch assigns no index), and for `streak ≥ 8` the index is clamped with
`Math.min(…, files.length - 1)` where `filesCount` is the number of
`.json.gz` files listed in the current mode's directory before the mode is
updated. The clamp can be negative when the directory is empty, hence the
`ℤ` index. -/
def resolveProgressionNode (streak : ℕ) (filesCount : ℕ) : String × ℤ :=
  if streak < 3 then ("tutorial", 0)
  else if streak < 8 then ("core-loop", 0)
  else
    let puzzleNumber := streak - 8
    if puzzleNumber % 5 = 4 then
      ("spice", min ((puzzleNumber : ℤ) / 10) ((filesCount : ℤ) - 1))
    else ("core-loop", min ((puzzleNumber : ℤ) / 5) ((filesCount : ℤ) - 1))

/-- State effect of part_000's `getNextPuzzle` as one completed call:
updates the mode from the progression, runs the chunk-cache fill (with
`fetched` the outcome of a potential miss), and on a non-null chunk stores
the randomly selected record (`randIndex` is the drawn index; an empty
chunk yields an undefined — `none` — current puzzle). On a null chunk the
function returns early and `currentPuzzle` is untouched. -/
def getNextPuzzleState (m : PuzzleManager) (fetched : Option Chunk)
    (randIndex : ℕ) : PuzzleManager :=
  let tc := resolveProgression m.currentStreak
  let filled := loadPuzzleChunk m.loadedChunks tc.1 tc.2 fetched
  let m' := { m with puzzleMode := tc.1, loadedChunks := filled.1 }
  match filled.2 with
  | none => m'
  | some chunk => { m' with currentPuzzle := chunk[randIndex]? }

/-- Public-API calls that mutate a session, each carrying the external
inputs (clock readings, fetch outcomes, random draw) of that completed
call. -/
inductive SessionOp where
  | start (now : ℚ)
  | tick (now : ℚ)
  | submit (move : String) (moveIndex : ℤ) (now : ℚ)
  | next (fetched : Option Chunk) (randIndex : ℕ)
  | setMode (mode : String)
  | reset

/-- Effect of one completed public-API call on the manager state. -/
def applySessionOp (m : PuzzleManager) : SessionOp → PuzzleManager
  | SessionOp.start now => startPuzzleTimer m now
  | SessionOp.tick now => (updateGameTimer m now).1
  | SessionOp.submit move moveIndex now => (checkMove m move moveIndex now).1
  | SessionOp.next fetched randIndex => getNextPuzzleState m fetched randIndex
  | SessionOp.setMode mode => setPuzzleMode m mode
  | SessionOp.reset => resetGame m

/-- Session state reached from a fresh manager by a sequence of completed
public-API calls. -/
def runSession (ops : List SessionOp) : PuzzleManager :=
  ops.foldl applySessionOp initManager

/-- The tier/chunk table of spec section 4.5, written from the spec's
words: `s < 3` gives (tutorial, 0); `3 ≤ s < 8` gives (core-loop,
`⌊(s-3)/2⌋`); `s ≥ 8` with `p = s - 8` gives (spice, `⌊p/10⌋`) when
`p % 5 = 4` and (core-loop, `⌊p/5⌋`) otherwise, with no clamping. -/
def specProgressionTable (streak : ℕ) : String × ℕ :=
  if streak < 3 then ("tutorial", 0)
  else if streak < 8 then ("core-loop", (streak - 3) / 2)
  else if (streak - 8) % 5 = 4 then ("spice", (streak - 8) / 10)
  else ("core-loop", (streak - 8) / 5)

/-- Side-to-move derivation of the spec: White when the FEN contains
`" w "`, Black otherwise. -/
def goalSideSpec (puzzle : PuzzleRecord) : String :=
  if strIncludes puzzle.FEN " w " then "White" else "Black"

/-- Goal phrase under claim C5's literal reading: mate themes first, then
the first motif of the fixed list `[fork, pin, skewer, doubleCheck]` — in
that list's order — that occurs among the themes, then the generic
fallback. -/
def goalPhraseClaim (themes : List String) : String :=
  if themes.contains "mateIn1" then "Mate in 1"
  else if themes.contains "mateIn2" then "Mate in 2"
  else if themes.contains "mateIn3" then "Mate in 3"
  else
    match (["fork", "pin", "skewer", "doubleCheck"] : List String).find?
        (fun motif => themes.contains motif) with
    | some motif => "Find the " ++ motif
    | none => "Find the best tactic"

/-- Goal text under claim C5's literal reading (fixed motif-list
priority). -/
def getGoalTextClaim (puzzle : PuzzleRecord) : String :=
  goalSideSpec puzzle ++ " to move – " ++ goalPhraseClaim (jsSplit puzzle.Themes ' ')

/-- Goal phrase as amended: mate themes first, then the first tag of the
puzzle's theme list — scanned in the theme list's own order — that belongs
to `{fork, pin, skewer, doubleCheck}`, then the generic fallback. -/
def goalPhraseAmended (themes : List String) : String :=
  if themes.contains "mateIn1" then "Mate in 1"
  else if themes.contains "mateIn2" then "Mate in 2"
  else if themes.contains "mateIn3" then "Mate in 3"
  else
    match themes.find?
        (fun t => (["fork", "pin", "skewer", "doubleCheck"] : List String).contains t) with
    | some motif => "Find the " ++ motif
    | none => "Find the best tactic"

/-- Goal text as amended (theme-list-order motif selection). -/
def getGoalTextAmended (puzzle : PuzzleRecord) : String :=
  goalSideSpec puzzle ++ " to move – " ++ goalPhraseAmended (jsSplit puzzle.Themes ' ')

/-- Concrete puzzle used by witnesses. -/
def testPuzzle : PuzzleRecord := ⟨"fen", "e2e4 e7e5", "1500", "fork"⟩

/-- Concrete mid-game manager state used by witnesses. -/
def testManager : PuzzleManager :=
  { currentPuzzle := some testPuzzle, currentStreak := 4, currentScore := 300 }

/-! Helper lemmas shared by the claim proofs. -/

lemma contains_append_singleton (l : List String) (a : String) :
    (l ++ [a]).contains a = true := by
  induction l with
  | nil => simp
  | cons x xs ih => simp [List.contains_cons, ih]

lemma loadPuzzleChunkKey_hit (cache : List (String × Chunk)) (key : String)
    (chunk : Chunk) (h : lookupChunk cache key = some chunk)
    (fetched : Option Chunk) :
    loadPuzzleChunkKey cache key fetched = (cache, some chunk) := by
  simp [loadPuzzleChunkKey, h]

lemma loadPuzzleChunkKey_length_le (cache : List (String × Chunk))
    (key : String) (fetched : Option Chunk) (h : cache.length ≤ 5) :
    (loadPuzzleChunkKey cache key fetched).1.length ≤ 5 := by
  unfold loadPuzzleChunkKey
  cases hl : lookupChunk cache key with
  | some c => simpa using h
  | none =>
    cases fetched with
    | none => simpa using h
    | some v =>
      simp only
      split
      · rename_i h5
        simp [List.length_tail, List.length_append] at *
        omega
      · rename_i h5
        simp [List.length_append] at *
        omega

lemma loadPuzzleChunkKey_evict (cache : List (String × Chunk)) (key : String)
    (v : Chunk) (hlen : cache.length = 5) (hmiss : lookupChunk cache key = none) :
    (loadPuzzleChunkKey cache key (some v)).1 = cache.tail ++ [(key, v)] := by
  unfold loadPuzzleChunkKey
  rw [hmiss]
  simp only
  cases cache with
  | nil => simp at hlen
  | cons x xs =>
    rw [if_pos]
    · rfl
    · simp only [List.length_append, List.length_cons] at hlen ⊢
      omega

lemma applyCacheEvent_length_le (st : CacheState) (e : CacheEvent)
    (h : st.loadedChunks.length ≤ 5) :
    (applyCacheEvent st e).loadedChunks.length ≤ 5 := by
  cases e with
  | load mode i f =>
    exact loadPuzzleChunkKey_length_le st.loadedChunks (chunkCacheKey mode i) f h
  | prefetch mode i f =>
    show (prefetchChunk st mode i f).1.loadedChunks.length ≤ 5
    simp only [prefetchChunk]
    split
    · exact h
    · exact loadPuzzleChunkKey_length_le st.loadedChunks (chunkCacheKey mode i) f h

lemma foldl_cache_length_le (events : List CacheEvent) :
    ∀ st : CacheState, st.loadedChunks.length ≤ 5 →
      ((events.foldl applyCacheEvent st).loadedChunks.length ≤ 5) := by
  induction events with
  | nil => intro st h; simpa using h
  | cons e es ih =>
    intro st h
    exact ih _ (applyCacheEvent_length_le st e h)

lemma checkMove_wrong (m : PuzzleManager) (puzzle : PuzzleRecord)
    (move : String) (moveIndex : ℤ) (now : ℚ)
    (hp : m.currentPuzzle = some puzzle)
    (hc : moveIsCorrect puzzle move moveIndex = false) :
    checkMove m move moveIndex now =
      ({ m with currentStreak := 0 }, CheckResult.moveResult false false) := by
  simp [checkMove, hp, hc]

lemma checkMove_remainingTime (m : PuzzleManager) (move : String)
    (moveIndex : ℤ) (now : ℚ) :
    (checkMove m move moveIndex now).1.remainingTime = m.remainingTime := by
  rcases hp : m.currentPuzzle with _ | puzzle
  · simp only [checkMove, hp]
  · simp only [checkMove, hp]
    split_ifs <;> rfl

lemma checkMove_correct_flag (m : PuzzleManager) (puzzle : PuzzleRecord)
    (move : String) (moveIndex : ℤ) (now : ℚ)
    (hp : m.currentPuzzle = some puzzle) :
    (checkMove m move moveIndex now).2.correct = moveIsCorrect puzzle move moveIndex := by
  simp only [checkMove, hp]
  split_ifs with h1 h2
  · simp [CheckResult.correct, h1.1]
  · rfl
  · rfl

lemma checkMove_complete_iff (m : PuzzleManager) (puzzle : PuzzleRecord)
    (move : String) (moveIndex : ℤ) (now : ℚ)
    (hp : m.currentPuzzle = some puzzle) :
    ((checkMove m move moveIndex now).2.complete = true ↔
      moveIsCorrect puzzle move moveIndex = true ∧
        moveIndex = ((jsSplit puzzle.Moves ' ').length : ℤ) - 1) := by
  simp only [checkMove, hp]
  split_ifs with h1 h2
  · simp only [CheckResult.complete]
    exact iff_of_true trivial h1
  · simp only [CheckResult.complete, h2]
    constructor
    · intro hfalse; exact absurd hfalse (by simp)
    · intro hand; exact absurd ⟨h2, hand.2⟩ h1
  · simp only [CheckResult.complete]
    constructor
    · intro hfalse; exact absurd hfalse (by simp)
    · intro hand; exact absurd hand.1 (by simpa using h2)

lemma startPuzzleTimer_remainingTime (m : PuzzleManager) (now : ℚ) :
    (startPuzzleTimer m now).remainingTime = m.remainingTime := by
  unfold startPuzzleTimer
  split_ifs <;> rfl

lemma getNextPuzzleState_remainingTime (m : PuzzleManager)
    (fetched : Option Chunk) (randIndex : ℕ) :
    (getNextPuzzleState m fetched randIndex).remainingTime = m.remainingTime := by
  simp only [getNextPuzzleState]
  split <;> rfl

lemma applySessionOp_remainingTime_nonneg (m : PuzzleManager) (op : SessionOp)
    (h : 0 ≤ m.remainingTime) : 0 ≤ (applySessionOp m op).remainingTime := by
  cases op with
  | start now => rw [show (applySessionOp m (SessionOp.start now)) = startPuzzleTimer m now from rfl, startPuzzleTimer_remainingTime]; exact h
  | tick now => exact le_max_left 0 _
  | submit move moveIndex now =>
    rw [show (applySessionOp m (SessionOp.submit move moveIndex now)) = (checkMove m move moveIndex now).1 from rfl, checkMove_remainingTime]
    exact h
  | next fetched randIndex =>
    rw [show (applySessionOp m (SessionOp.next fetched randIndex)) = getNextPuzzleState m fetched randIndex from rfl, getNextPuzzleState_remainingTime]
    exact h
  | setMode mode => exact h
  | reset => norm_num [applySessionOp, resetGame]

lemma runSession_remainingTime_nonneg_aux (ops : List SessionOp) :
    ∀ m : PuzzleManager, 0 ≤ m.remainingTime →
      0 ≤ (ops.foldl applySessionOp m).remainingTime := by
  induction ops with
  | nil => intro m h; simpa using h
  | cons op rest ih =>
    intro m h
    exact ih _ (applySessionOp_remainingTime_nonneg m op h)

lemma getGoalText_eq_amended_aux (puzzle : PuzzleRecord) :
    getGoalText puzzle = getGoalTextAmended puzzle := by
  unfold getGoalText getGoalTextAmended goalSideSpec goalPhraseAmended
  set side := if strIncludes puzzle.FEN " w " then "White" else "Black"
  set themes := jsSplit puzzle.Themes ' '
  simp only [String.append_assoc]
  split_ifs
  · congr 1
  · congr 1
  · congr 1
  · split <;> congr 1

/-- Claim C1 (counterexample): the claim asserts that both implementations
select exactly the tier and chunk index of the spec table, without
clamping. The Node implementation does not: at streak 5 the table gives
(core-loop, 1) but `resolveProgressionNode` gives chunk 0 (its core-loop
ramp branch never assigns a chunk index), and at streak 108 with 2 listed
files the table gives chunk 20 but the Node code clamps to 1. -/
theorem claim_C1_counterexample :
    specProgressionTable 5 = ("core-loop", 1) ∧
    resolveProgressionNode 5 7 = ("core-loop", 0) ∧
    (resolveProgressionNode 5 7).2 ≠ ((specProgressionTable 5).2 : ℤ) ∧
    specProgressionTable 108 = ("core-loop", 20) ∧
    resolveProgressionNode 108 2 = ("core-loop", 1) ∧
    (resolveProgressionNode 108 2).2 ≠ ((specProgressionTable 108).2 : ℤ) ∧
    resolveProgression 5 = specProgressionTable 5 := by
  refine ⟨by decide, by decide, by decide, by decide, by decide, by decide, rfl⟩

/-- Claim C1 (amended): the browser implementation's progression
(`resolveProgression`, a pure function — hence deterministic) matches the
spec table exactly for every streak, with no clamping. The Node
implementation agrees with the table's tiers for every streak, but its
chunk index is 0 throughout `streak < 8` and, for `streak ≥ 8`, is the
table's index clamped with `Math.min(·, filesCount - 1)`. -/
theorem claim_C1_theorem :
    (∀ streak : ℕ, resolveProgression streak = specProgressionTable streak) ∧
    (∀ streak filesCount : ℕ,
      (resolveProgressionNode streak filesCount).1 = (specProgressionTable streak).1) ∧
    (∀ streak filesCount : ℕ, streak < 8 →
      (resolveProgressionNode streak filesCount).2 = 0) ∧
    (∀ streak filesCount : ℕ, 8 ≤ streak →
      (resolveProgressionNode streak filesCount).2 =
        min (((specProgressionTable streak).2 : ℤ)) ((filesCount : ℤ) - 1)) := by
  refine ⟨fun s => rfl, ?_, ?_, ?_⟩
  · intro s fc
    unfold resolveProgressionNode specProgressionTable
    dsimp only
    split_ifs <;> rfl
  · intro s fc h
    unfold resolveProgressionNode
    dsimp only
    split_ifs <;> rfl
  · intro s fc h
    have h3 : ¬ s < 3 := by omega
    have h8 : ¬ s < 8 := by omega
    unfold resolveProgressionNode specProgressionTable
    dsimp only
    simp only [if_neg h3, if_neg h8]
    split_ifs <;> rfl

/-- Witness for claim C1's amended theorem at streaks 13, 5 and 12. -/
theorem claim_C1_witness :
    resolveProgression 13 = specProgressionTable 13 ∧
    (resolveProgressionNode 13 9).1 = (specProgressionTable 13).1 ∧
    (resolveProgressionNode 5 7).2 = 0 ∧
    (resolveProgressionNode 12 3).2 =
      min (((specProgressionTable 12).2 : ℤ)) (((3 : ℕ) : ℤ) - 1) :=
  ⟨claim_C1_theorem.1 13, claim_C1_theorem.2.1 13 9,
    claim_C1_theorem.2.2.1 5 7 (by decide),
    claim_C1_theorem.2.2.2 12 3 (by decide)⟩

/-- Claim C2: after every completed `loadPuzzleChunk` call — and after any
sequence of completed load/prefetch operations from a fresh manager — the
chunk cache holds at most 5 entries; a cache hit leaves the cache
untouched (so reads never affect eviction order); and when an insertion
would make the count exceed 5, the single entry removed is the head of the
insertion order, i.e. the earliest-inserted key. -/
theorem claim_C2_theorem :
    (∀ events : List CacheEvent,
      (runCacheEvents events).loadedChunks.length ≤ 5) ∧
    (∀ (cache : List (String × Chunk)) (key : String) (fetched : Option Chunk),
      cache.length ≤ 5 → (loadPuzzleChunkKey cache key fetched).1.length ≤ 5) ∧
    (∀ (cache : List (String × Chunk)) (key : String) (chunk : Chunk)
      (fetched : Option Chunk), lookupChunk cache key = some chunk →
      loadPuzzleChunkKey cache key fetched = (cache, some chunk)) ∧
    (∀ (cache : List (String × Chunk)) (key : String) (v : Chunk),
      cache.length = 5 → lookupChunk cache key = none →
      (loadPuzzleChunkKey cache key (some v)).1 = cache.tail ++ [(key, v)]) := by
  refine ⟨?_, ?_, ?_, ?_⟩
  · intro events
    exact foldl_cache_length_le events ⟨[], []⟩ (by simp)
  · intro cache key fetched h
    exact loadPuzzleChunkKey_length_le cache key fetched h
  · intro cache key chunk fetched h
    exact loadPuzzleChunkKey_hit cache key chunk h fetched
  · intro cache key v hlen hmiss
    exact loadPuzzleChunkKey_evict cache key v hlen hmiss

/-- Witness for claim C2 on a concrete full cache: inserting a sixth
entry evicts exactly the earliest-inserted key. -/
theorem claim_C2_witness :
    ([("a", ([] : Chunk)), ("b", []), ("c", []), ("d", []), ("e", [])] :
        List (String × Chunk)).length = 5 ∧
    lookupChunk [("a", ([] : Chunk)), ("b", []), ("c", []), ("d", []), ("e", [])] "f" = none ∧
    (loadPuzzleChunkKey
        [("a", ([] : Chunk)), ("b", []), ("c", []), ("d", []), ("e", [])] "f"
        (some [])).1 =
      ([("a", ([] : Chunk)), ("b", []), ("c", []), ("d", []), ("e", [])] :
        List (String × Chunk)).tail ++ [("f", [])] ∧
    (runCacheEvents [CacheEvent.load "tutorial" 0 (some [])]).loadedChunks.length ≤ 5 :=
  ⟨rfl, rfl,
    claim_C2_theorem.2.2.2 _ "f" [] rfl rfl,
    claim_C2_theorem.1 [CacheEvent.load "tutorial" 0 (some [])]⟩

/-- Claim C3: for every active puzzle, every move index, and every
submitted move that differs from the solution move at that index,
`checkMove` resets the streak to 0, returns `{correct: false, complete:
false}`, and leaves the score, the current puzzle and the remaining time
unchanged. -/
theorem claim_C3_theorem (m : PuzzleManager) (puzzle : PuzzleRecord)
    (move : String) (moveIndex : ℤ) (now : ℚ)
    (hp : m.currentPuzzle = some puzzle)
    (hdiff : ∀ sol, jsIndex (jsSplit puzzle.Moves ' ') moveIndex = some sol →
      move ≠ sol) :
    (checkMove m move moveIndex now).1.currentStreak = 0 ∧
    (checkMove m move moveIndex now).2 = CheckResult.moveResult false false ∧
    (checkMove m move moveIndex now).1.currentScore = m.currentScore ∧
    (checkMove m move moveIndex now).1.currentPuzzle = m.currentPuzzle ∧
    (checkMove m move moveIndex now).1.remainingTime = m.remainingTime := by
  have hc : moveIsCorrect puzzle move moveIndex = false := by
    unfold moveIsCorrect
    cases hj : jsIndex (jsSplit puzzle.Moves ' ') moveIndex with
    | none => rfl
    | some sol => simpa using hdiff sol hj
  rw [checkMove_wrong m puzzle move moveIndex now hp hc]
  exact ⟨rfl, rfl, rfl, rfl, rfl⟩

/-- Witness for claim C3: a wrong first move on a concrete two-move
puzzle. -/
theorem claim_C3_witness :
    (checkMove testManager "a1a2" 0 7).1.currentStreak = 0 ∧
    (checkMove testManager "a1a2" 0 7).2 = CheckResult.moveResult false false ∧
    (checkMove testManager "a1a2" 0 7).1.currentScore = testManager.currentScore ∧
    (checkMove testManager "a1a2" 0 7).1.currentPuzzle = testManager.currentPuzzle := by
  have h := claim_C3_theorem testManager testPuzzle "a1a2" 0 7 rfl
    (by
      intro sol hj
      have hidx : jsIndex (jsSplit testPuzzle.Moves ' ') 0 = some "e2e4" := by decide
      rw [hidx] at hj
      cases hj
      decide)
  exact ⟨h.1, h.2.1, h.2.2.1, h.2.2.2.1⟩

/-- Claim C8: with no active puzzle `checkMove` returns the bare falsy
result without throwing (the embedding is total), and the manager state is
returned entirely unchanged. -/
theorem claim_C8_theorem (m : PuzzleManager) (move : String) (moveIndex : ℤ)
    (now : ℚ) (hp : m.currentPuzzle = none) :
    checkMove m move moveIndex now = (m, CheckResult.noPuzzle) ∧
    (checkMove m move moveIndex now).2.correct = false ∧
    (checkMove m move moveIndex now).2.complete = false := by
  have h : checkMove m move moveIndex now = (m, CheckResult.noPuzzle) := by
    simp [checkMove, hp]
  exact ⟨h, by rw [h]; rfl, by rw [h]; rfl⟩

/-- Witness for claim C8 at the fresh manager, which has no puzzle. -/
theorem claim_C8_witness :
    checkMove initManager "e2e4" 0 0 = (initManager, CheckResult.noPuzzle) ∧
    (checkMove initManager "e2e4" 0 0).2.correct = false ∧
    (checkMove initManager "e2e4" 0 0).2.complete = false :=
  claim_C8_theorem initManager "e2e4" 0 0 rfl

/-- Claim C9: for an active puzzle and any move index outside the bounds
of the solution move list, the indexed solution move is `undefined`
(`none`), which compares unequal to every submitted move string, so
`checkMove` returns `{correct: false, complete: false}`, resets the streak
to 0, and leaves score and current puzzle unchanged — with no
out-of-bounds access (the lookup is total). -/
theorem claim_C9_theorem (m : PuzzleManager) (puzzle : PuzzleRecord)
    (move : String) (moveIndex : ℤ) (now : ℚ)
    (hp : m.currentPuzzle = some puzzle)
    (hb : moveIndex < 0 ∨ ((jsSplit puzzle.Moves ' ').length : ℤ) ≤ moveIndex) :
    jsIndex (jsSplit puzzle.Moves ' ') moveIndex = none ∧
    (∀ move' : String, moveIsCorrect puzzle move' moveIndex = false) ∧
    (checkMove m move moveIndex now).2 = CheckResult.moveResult false false ∧
    (checkMove m move moveIndex now).1.currentStreak = 0 ∧
    (checkMove m move moveIndex now).1.currentScore = m.currentScore ∧
    (checkMove m move moveIndex now).1.currentPuzzle = m.currentPuzzle := by
  have hnone : jsIndex (jsSplit puzzle.Moves ' ') moveIndex = none := by
    unfold jsIndex
    rcases hb with hneg | hge
    · rw [if_pos hneg]
    · rw [if_neg (by omega)]
      exact List.getElem?_eq_none (by omega)
  have hfalse : ∀ move' : String, moveIsCorrect puzzle move' moveIndex = false := by
    intro move'
    unfold moveIsCorrect
    rw [hnone]
  have h := checkMove_wrong m puzzle move moveIndex now hp (hfalse move)
  rw [h]
  exact ⟨hnone, hfalse, rfl, rfl, rfl, rfl⟩

/-- Witness for claim C9: index 5 on a concrete two-move puzzle. -/
theorem claim_C9_witness :
    jsIndex (jsSplit testPuzzle.Moves ' ') 5 = none ∧
    (checkMove testManager "e2e4" 5 7).2 = CheckResult.moveResult false false ∧
    (checkMove testManager "e2e4" 5 7).1.currentStreak = 0 ∧
    (checkMove testManager "e2e4" 5 7).1.currentScore = testManager.currentScore := by
  have h := claim_C9_theorem testManager testPuzzle "e2e4" 5 7 rfl
    (Or.inr (by decide))
  exact ⟨h.1, h.2.2.1, h.2.2.2.1, h.2.2.2.2.1⟩

/-- Claim C10: `resetGame` does not clear `currentPuzzle` — it resets
score, streak, remaining time, both timer anchors and the mode, and a
subsequent `checkMove` still evaluates correctness and completion against
the pre-reset puzzle's solution moves. -/
theorem claim_C10_theorem (m : PuzzleManager) :
    (resetGame m).currentPuzzle = m.currentPuzzle ∧
    (resetGame m).currentScore = 0 ∧
    (resetGame m).currentStreak = 0 ∧
    (resetGame m).remainingTime = 60 ∧
    (resetGame m).lastUpdateTime = none ∧
    (resetGame m).solveStartTime = none ∧
    (resetGame m).puzzleMode = "tutorial" ∧
    (∀ puzzle, m.currentPuzzle = some puzzle →
      ∀ (move : String) (moveIndex : ℤ) (now : ℚ),
        (checkMove (resetGame m) move moveIndex now).2.correct =
          moveIsCorrect puzzle move moveIndex ∧
        ((checkMove (resetGame m) move moveIndex now).2.complete = true ↔
          moveIsCorrect puzzle move moveIndex = true ∧
            moveIndex = ((jsSplit puzzle.Moves ' ').length : ℤ) - 1)) := by
  refine ⟨rfl, rfl, rfl, rfl, rfl, rfl, rfl, ?_⟩
  intro puzzle hpuz move moveIndex now
  have hp : (resetGame m).currentPuzzle = some puzzle := hpuz
  exact ⟨checkMove_correct_flag _ puzzle move moveIndex now hp,
    checkMove_complete_iff _ puzzle move moveIndex now hp⟩

/-- Witness for claim C10 at a concrete mid-game state. -/
theorem claim_C10_witness :
    (resetGame testManager).currentPuzzle = testManager.currentPuzzle ∧
    (resetGame testManager).currentScore = 0 ∧
    (resetGame testManager).currentStreak = 0 ∧
    (resetGame testManager).remainingTime = 60 ∧
    (checkMove (resetGame testManager) "e2e4" 0 7).2.correct =
      moveIsCorrect testPuzzle "e2e4" 0 := by
  have h := claim_C10_theorem testManager
  exact ⟨h.1, h.2.1, h.2.2.1, h.2.2.2.1, (h.2.2.2.2.2.2.2 testPuzzle rfl "e2e4" 0 7).1⟩

/-- Claim C4: `calculatePuzzleScore` equals
`round(100 * min(3, 1 + streak*0.1) * max(1, 2 - t/15))` when the base
points are the constructor's 100; for a nonnegative solve time the
pre-rounding product lies in `[100, 3*100*2]`; streak 0 at 15s scores 100,
streak 10 at 0s scores 400, and streak 30 clamps the multiplier to 3. -/
theorem claim_C4_theorem (m : PuzzleManager) (t : ℚ)
    (hbp : m.basePoints = 100) (ht : 0 ≤ t) :
    calculatePuzzleScore m t =
      jsRound (100 * min 3 (1 + (m.currentStreak : ℚ) * 0.1) * max 1 (2 - t / 15)) ∧
    100 ≤ 100 * min 3 (1 + (m.currentStreak : ℚ) * 0.1) * max 1 (2 - t / 15) ∧
    100 * min 3 (1 + (m.currentStreak : ℚ) * 0.1) * max 1 (2 - t / 15) ≤ 3 * 100 * 2 ∧
    calculatePuzzleScore { currentStreak := 0 } 15 = 100 ∧
    calculatePuzzleScore { currentStreak := 10 } 0 = 400 ∧
    min 3 (1 + ((30 : ℕ) : ℚ) * 0.1) = 3 := by
  have hM1 : 1 ≤ min 3 (1 + (m.currentStreak : ℚ) * 0.1) := by
    refine le_min (by norm_num) ?_
    have : (0 : ℚ) ≤ (m.currentStreak : ℚ) := Nat.cast_nonneg _
    nlinarith
  have hM3 : min 3 (1 + (m.currentStreak : ℚ) * 0.1) ≤ 3 := min_le_left _ _
  have hB1 : 1 ≤ max 1 (2 - t / 15) := le_max_left _ _
  have hB2 : max 1 (2 - t / 15) ≤ 2 := by
    refine max_le (by norm_num) ?_
    have : (0 : ℚ) ≤ t / 15 := by positivity
    linarith
  refine ⟨?_, ?_, ?_, ?_, ?_, ?_⟩
  · unfold calculatePuzzleScore
    rw [hbp]
  · nlinarith
  · nlinarith
  · norm_num [calculatePuzzleScore, jsRound]
  · norm_num [calculatePuzzleScore, jsRound]
  · norm_num

/-- Witness for claim C4 at the fresh manager and solve time 0. -/
theorem claim_C4_witness :
    calculatePuzzleScore initManager 0 =
      jsRound (100 * min 3 (1 + (initManager.currentStreak : ℚ) * 0.1) *
        max 1 (2 - 0 / 15)) ∧
    100 ≤ 100 * min 3 (1 + (initManager.currentStreak : ℚ) * 0.1) *
      max 1 (2 - 0 / 15) ∧
    100 * min 3 (1 + (initManager.currentStreak : ℚ) * 0.1) *
      max 1 (2 - 0 / 15) ≤ 3 * 100 * 2 ∧
    calculatePuzzleScore { currentStreak := 0 } 15 = 100 ∧
    calculatePuzzleScore { currentStreak := 10 } 0 = 400 ∧
    min 3 (1 + ((30 : ℕ) : ℚ) * 0.1) = 3 :=
  claim_C4_theorem initManager 0 rfl le_rfl

/-- Claim C5 (counterexample): the claim's fixed motif priority
(fork before pin) disagrees with the code on themes `"pin fork"`: the code
scans the theme list in its own order and answers "Find the pin", while
the claimed fixed order answers "Find the fork". -/
theorem claim_C5_counterexample :
    getGoalText ⟨"3r2k1/5ppp/8/8/8/8/5PPP/3R2K1 w - - 0 1", "d1d8 ", "1500", "pin fork"⟩ =
      "White to move – Find the pin" ∧
    getGoalTextClaim ⟨"3r2k1/5ppp/8/8/8/8/5PPP/3R2K1 w - - 0 1", "d1d8 ", "1500", "pin fork"⟩ =
      "White to move – Find the fork" ∧
    getGoalText ⟨"3r2k1/5ppp/8/8/8/8/5PPP/3R2K1 w - - 0 1", "d1d8 ", "1500", "pin fork"⟩ ≠
      getGoalTextClaim ⟨"3r2k1/5ppp/8/8/8/8/5PPP/3R2K1 w - - 0 1", "d1d8 ", "1500", "pin fork"⟩ := by
  refine ⟨by decide, by decide, by decide⟩

/-- Claim C5 (amended): `getGoalText` derives the side from whether the
FEN contains `" w "` and chooses the phrase by the priority mateIn1 >
mateIn2 > mateIn3 > the first tag of the puzzle's theme list, in the
theme list's own order, that belongs to {fork, pin, skewer, doubleCheck} >
the generic fallback; the spec's three worked examples hold. -/
theorem claim_C5_theorem :
    (∀ puzzle, getGoalText puzzle = getGoalTextAmended puzzle) ∧
    getGoalText ⟨"8/8/8/8/8/8/8/8 w - - 0 1", "a1a2", "1500", "mateIn2 middlegame"⟩ =
      "White to move – Mate in 2" ∧
    getGoalText ⟨"8/8/8/8/8/8/8/8 b - - 0 1", "a1a2", "1500", "fork attack"⟩ =
      "Black to move – Find the fork" ∧
    getGoalText ⟨"8/8/8/8/8/8/8/8 b - - 0 1", "a1a2", "1500", "endgame advantage"⟩ =
      "Black to move – Find the best tactic" ∧
    getGoalText ⟨"8/8/8/8/8/8/8/8 w - - 0 1", "a1a2", "1500", "mateIn1 mateIn2"⟩ =
      "White to move – Mate in 1" := by
  exact ⟨getGoalText_eq_amended_aux, by decide, by decide, by decide, by decide⟩

/-- Claim C6: after any completed `prefetchChunk` call the key is in the
prefetched-marker set whether the fill succeeded or failed (the fill path
never throws), a second call for the same key is a no-op performing no
fill attempt, two sequential calls perform at most one fill attempt in
total, and a call whose key is already marked changes nothing. -/
theorem claim_C6_theorem (st : CacheState) (mode : String) (chunkIndex : ℕ)
    (f1 f2 : Option Chunk) :
    ((prefetchChunk st mode chunkIndex f1).1.prefetchedChunks.contains
      (chunkCacheKey mode chunkIndex) = true) ∧
    (prefetchChunk (prefetchChunk st mode chunkIndex f1).1 mode chunkIndex f2 =
      ((prefetchChunk st mode chunkIndex f1).1, 0)) ∧
    ((prefetchChunk st mode chunkIndex f1).2 +
      (prefetchChunk (prefetchChunk st mode chunkIndex f1).1 mode chunkIndex f2).2 ≤ 1) ∧
    (st.prefetchedChunks.contains (chunkCacheKey mode chunkIndex) = true →
      prefetchChunk st mode chunkIndex f1 = (st, 0)) := by
  have hmark : (prefetchChunk st mode chunkIndex f1).1.prefetchedChunks.contains
      (chunkCacheKey mode chunkIndex) = true := by
    unfold prefetchChunk
    dsimp only
    split_ifs with h
    · exact h
    · exact contains_append_singleton _ _
  have hnoop : ∀ (st' : CacheState) (f : Option Chunk),
      st'.prefetchedChunks.contains (chunkCacheKey mode chunkIndex) = true →
      prefetchChunk st' mode chunkIndex f = (st', 0) := by
    intro st' f h
    unfold prefetchChunk
    dsimp only
    rw [if_pos h]
  have hsecond : prefetchChunk (prefetchChunk st mode chunkIndex f1).1 mode chunkIndex f2 =
      ((prefetchChunk st mode chunkIndex f1).1, 0) := hnoop _ f2 hmark
  have hfirst_le : (prefetchChunk st mode chunkIndex f1).2 ≤ 1 := by
    unfold prefetchChunk
    dsimp only
    split_ifs
    · norm_num
    · norm_num
  refine ⟨hmark, hsecond, ?_, ?_⟩
  · rw [hsecond]
    simpa using hfirst_le
  · intro h
    exact hnoop st f1 h

/-- Witness for claim C6: a failed prefetch of `tutorial-0` still marks
the key, and the follow-up call is a no-op. -/
theorem claim_C6_witness :
    ((prefetchChunk ⟨[], []⟩ "tutorial" 0 none).1.prefetchedChunks.contains
      (chunkCacheKey "tutorial" 0) = true) ∧
    (prefetchChunk (prefetchChunk ⟨[], []⟩ "tutorial" 0 none).1 "tutorial" 0
        (some []) = ((prefetchChunk ⟨[], []⟩ "tutorial" 0 none).1, 0)) ∧
    ((prefetchChunk ⟨[], []⟩ "tutorial" 0 none).2 +
      (prefetchChunk (prefetchChunk ⟨[], []⟩ "tutorial" 0 none).1 "tutorial" 0
        (some [])).2 ≤ 1) ∧
    (prefetchChunk ⟨[], ["tutorial-0"]⟩ "tutorial" 0 none = (⟨[], ["tutorial-0"]⟩, 0)) := by
  have h := claim_C6_theorem ⟨[], []⟩ "tutorial" 0 none (some [])
  have h2 := claim_C6_theorem ⟨[], ["tutorial-0"]⟩ "tutorial" 0 none none
  exact ⟨h.1, h.2.1, h.2.2.1, h2.2.2.2 (by decide)⟩

/-- Claim C7: in every session state reachable through the public API
the remaining time is nonnegative; `isGameOver` is true exactly when the
remaining time is 0; and a tick dated 1000 ms after the recorded anchor
sets the remaining time to `max 0 (previous - 1)` — exactly one less when
at least 1 second remained — and returns that value, never negative. -/
theorem claim_C7_theorem :
    (∀ ops : List SessionOp, 0 ≤ (runSession ops).remainingTime) ∧
    (∀ ops : List SessionOp,
      (isGameOver (runSession ops) = true ↔ (runSession ops).remainingTime = 0)) ∧
    (∀ (m : PuzzleManager) (t₀ : ℚ), m.lastUpdateTime = some t₀ →
      (updateGameTimer m (t₀ + 1000)).2 = max 0 (m.remainingTime - 1) ∧
      (updateGameTimer m (t₀ + 1000)).1.remainingTime = max 0 (m.remainingTime - 1) ∧
      (1 ≤ m.remainingTime →
        (updateGameTimer m (t₀ + 1000)).2 = m.remainingTime - 1) ∧
      0 ≤ (updateGameTimer m (t₀ + 1000)).2) := by
  have hinv : ∀ ops : List SessionOp, 0 ≤ (runSession ops).remainingTime := by
    intro ops
    exact runSession_remainingTime_nonneg_aux ops initManager (by norm_num [initManager])
  refine ⟨hinv, ?_, ?_⟩
  · intro ops
    unfold isGameOver
    rw [decide_eq_true_iff]
    constructor
    · intro hle
      exact le_antisymm hle (hinv ops)
    · intro heq
      rw [heq]
  · intro m t₀ h
    have helapsed : (t₀ + 1000 - orZero m.lastUpdateTime) / 1000 = 1 := by
      rw [h]
      show (t₀ + 1000 - t₀) / 1000 = 1
      ring_nf
    have h2 : (updateGameTimer m (t₀ + 1000)).2 = max 0 (m.remainingTime - 1) := by
      unfold updateGameTimer
      dsimp only
      rw [helapsed]
    refine ⟨h2, ?_, ?_, ?_⟩
    · unfold updateGameTimer at h2 ⊢
      exact h2
    · intro hge
      rw [h2]
      exact max_eq_right (by linarith)
    · rw [h2]
      exact le_max_left 0 _

/-- Witness for claim C7: a concrete two-tick session (the second tick
overshooting the budget) and a concrete 1000 ms tick. -/
theorem claim_C7_witness :
    (0 ≤ (runSession [SessionOp.tick 1000, SessionOp.tick 90000]).remainingTime) ∧
    (isGameOver (runSession [SessionOp.tick 1000, SessionOp.tick 90000]) = true ↔
      (runSession [SessionOp.tick 1000, SessionOp.tick 90000]).remainingTime = 0) ∧
    ((updateGameTimer { lastUpdateTime := some 5000 } (5000 + 1000)).2 =
      max 0 (({ lastUpdateTime := some 5000 } : PuzzleManager).remainingTime - 1)) ∧
    ((updateGameTimer { lastUpdateTime := some 5000 } (5000 + 1000)).2 =
      ({ lastUpdateTime := some 5000 } : PuzzleManager).remainingTime - 1) ∧
    (0 ≤ (updateGameTimer { lastUpdateTime := some 5000 } (5000 + 1000)).2) := by
  have h := claim_C7_theorem.2.2 { lastUpdateTime := some 5000 } 5000 rfl
  exact ⟨claim_C7_theorem.1 _, claim_C7_theorem.2.1 _, h.1,
    h.2.2.1 (by norm_num), h.2.2.2⟩
